import Mathlib

/-!
Verification development for the tribology experiment acquisition pipeline
(`serial_comm.py` and `data_manager.py`).

Strings are modelled as `List Char`; Python floats are modelled as `ℚ`
(every numeral the protocol produces is an exact decimal, and none of the
claims depends on floating-point rounding).  Python code that can raise is
modelled with `Except Unit`.  All input lines considered are ASCII, so the
ASCII character classes below coincide with Python's regex classes on the
inputs of interest.
-/

namespace Tribology

instance {ε α : Type} [DecidableEq ε] [DecidableEq α] : DecidableEq (Except ε α) := fun a b =>
  match a, b with
  | .ok x, .ok y => decidable_of_iff (x = y) (by simp)
  | .error e, .error f => decidable_of_iff (e = f) (by simp)
  | .ok _, .error _ => isFalse (by simp)
  | .error _, .ok _ => isFalse (by simp)

/-- Python `max(a, b)` on integers, written as a kernel-reducible `if`. -/
def pyMax (a b : ℤ) : ℤ := if a ≤ b then b else a

/-- Python `min(a, b)` on numbers (returns `a` on ties). -/
def pyMinQ (a b : ℚ) : ℚ := if a ≤ b then a else b

/-- Python `max(a, b)` on numbers. -/
def pyMaxQ (a b : ℚ) : ℚ := if a ≤ b then b else a

/-- ASCII model of the regex class `[\d.-]` used by every tag pattern. -/
def numChar (c : Char) : Bool := c.isDigit || c == '.' || c == '-'

/-- ASCII model of the regex word class `\w`, used for `\b` boundaries. -/
def wordChar (c : Char) : Bool := c.isAlpha || c.isDigit || c == '_'

/-- `hasPrefixList p l` is true when `p` is an initial segment of `l`. -/
def hasPrefixList : List Char → List Char → Bool
  | [], _ => true
  | _ :: _, [] => false
  | a :: as, b :: bs => a == b && hasPrefixList as bs

/-- Substring test, modelling Python's `needle in haystack`. -/
def containsSub (n : List Char) : List Char → Bool
  | [] => hasPrefixList n []
  | c :: t => hasPrefixList n (c :: t) || containsSub n t

/-- `line.lower()` for ASCII text. -/
def lowerList (l : List Char) : List Char := l.map Char.toLower

/-- A word boundary `\b` holds before a word character when the previous
character (if any) is not a word character. -/
def boundaryOk : Option Char → Bool
  | none => true
  | some c => !wordChar c

/-- Model of `re.search(tag + r'([\d.-]+)', line)` (with an optional `\b`
before the tag): scan left to right for the first position where the tag
matches and is followed by at least one `[\d.-]` character, and return the
greedy group.  `prev` is the character just before the current position. -/
def searchTagAux (tag : List Char) (needB : Bool) : Option Char → List Char → Option (List Char)
  | _, [] => none
  | prev, c :: rest =>
    if (!needB || boundaryOk prev) && hasPrefixList tag (c :: rest)
        && (match (c :: rest).drop tag.length with
            | [] => false
            | a :: _ => numChar a) then
      some (((c :: rest).drop tag.length).takeWhile numChar)
    else
      searchTagAux tag needB (some c) rest

def searchTag (tag : List Char) (needB : Bool) (line : List Char) : Option (List Char) :=
  searchTagAux tag needB none line

/-- Numeric value of a digit string, as a rational. -/
def digitsVal (l : List Char) : ℚ := l.foldl (fun acc c => acc * 10 + (c.toNat - '0'.toNat : ℕ)) 0

/-- Model of Python `float(s)` restricted to strings over `[0-9.-]` (the
only strings the tag patterns can capture): an optional leading minus sign
followed by `digits`, `digits.digits?`, or `.digits`, consuming the whole
string; anything else raises `ValueError`, modelled as `none`. -/
def parseFloat (s : List Char) : Option ℚ :=
  let neg := s.take 1 = ['-']
  let t := if neg then s.drop 1 else s
  let intPart := t.takeWhile Char.isDigit
  let t2 := t.dropWhile Char.isDigit
  let mag : Option ℚ :=
    match t2 with
    | [] => if intPart.isEmpty then none else some (digitsVal intPart)
    | '.' :: r =>
      let fracPart := r.takeWhile Char.isDigit
      let r2 := r.dropWhile Char.isDigit
      if r2.isEmpty && (!intPart.isEmpty || !fracPart.isEmpty) then
        some (digitsVal intPart + digitsVal fracPart / (10 : ℚ) ^ fracPart.length)
      else none
    | _ => none
  mag.map (fun v => if neg then -v else v)

/-- One decoded protocol line (`parse_data_line`'s result dict): each
optional dict key becomes an `Option` field. `timestamp` is filled in later
by the data sink. -/
structure Reading where
  is_experiment : Bool
  raw : List Char
  time : Option ℚ
  fixed_x : Option ℚ
  fixed_z : Option ℚ
  fx : Option ℚ
  fz : Option ℚ
  force_x : Option ℚ
  force_z : Option ℚ
  message : Option (List Char)
  timestamp : Option ℚ
  deriving DecidableEq, Repr

def timeTag : List Char := "Time:".toList
def fixedXTag : List Char := "Fixed_X:".toList
def fxTag : List Char := "Fx:".toList
def fixedZTag : List Char := "Fixed_Z:".toList
def fzTag : List Char := "Fz:".toList

def statusKeywords : List (List Char) :=
  ["experiment".toList, "started".toList, "finished".toList, "pump".toList, "motor".toList]

/-- `line.startswith('>')`. -/
def hasMarker (l : List Char) : Bool := l.take 1 = ['>']

/-- The line with the experiment marker stripped (`line = line[1:]`). -/
def lineBody (l : List Char) : List Char := if hasMarker l then l.drop 1 else l

/-- `float(match.group(1))` for an optional match: absent match contributes
no field, a matched group that is not a valid numeral raises. -/
def convertGroup : Option (List Char) → Except Unit (Option ℚ)
  | none => .ok none
  | some g =>
    match parseFloat g with
    | some v => .ok (some v)
    | none => .error ()

/-- The canonical-force resolution chain for one axis, mirroring the two
dict assignments of the source in order: the fixed-name match assigns the
canonical key first (`val if "force_x" not in data else data["force_x"]`,
with the key necessarily still absent), and the short-name match assigns it
only when it is still absent. -/
def resolveForce (fixedV shortV : Option ℚ) : Option ℚ :=
  let f1 : Option ℚ :=
    match fixedV with
    | none => none
    | some v => if (none : Option ℚ).isSome then none else some v
  match shortV with
  | none => f1
  | some v => if f1.isSome then f1 else some v

/-- The pure tail of `parse_data_line` once the five groups have been
converted: dict assignments in source order (fixed names populate
`force_x`/`force_z` first, the short names only when still absent), then
the measurement / status / drop classification. -/
def resolveReading (isExp : Bool) (line : List Char)
    (t? fixedX? fxV? fixedZ? fzV? : Option ℚ) : Option Reading :=
  let forceX2 : Option ℚ := resolveForce fixedX? fxV?
  let forceZ2 : Option ℚ := resolveForce fixedZ? fzV?
  if forceX2.isSome || forceZ2.isSome then
    some { is_experiment := isExp, raw := line, time := t?, fixed_x := fixedX?,
           fixed_z := fixedZ?, fx := fxV?, fz := fzV?, force_x := forceX2,
           force_z := forceZ2, message := none, timestamp := none }
  else if statusKeywords.any (fun k => containsSub k (lowerList line)) then
    some { is_experiment := isExp, raw := line, time := t?, fixed_x := fixedX?,
           fixed_z := fixedZ?, fx := fxV?, fz := fzV?, force_x := forceX2,
           force_z := forceZ2, message := some line, timestamp := none }
  else none

/-- `SerialCommunication.parse_data_line`.  The five regex searches cannot
raise; the five `float` conversions happen in source order, and the first
failing one propagates (`.error`), aborting the parse. -/
def parse_data_line (line0 : List Char) : Except Unit (Option Reading) :=
  match convertGroup (searchTag timeTag false (lineBody line0)) with
  | .error e => .error e
  | .ok t? =>
    match convertGroup (searchTag fixedXTag false (lineBody line0)) with
    | .error e => .error e
    | .ok fixedX? =>
      match convertGroup (searchTag fxTag true (lineBody line0)) with
      | .error e => .error e
      | .ok fxV? =>
        match convertGroup (searchTag fixedZTag false (lineBody line0)) with
        | .error e => .error e
        | .ok fixedZ? =>
          match convertGroup (searchTag fzTag true (lineBody line0)) with
          | .error e => .error e
          | .ok fzV? =>
            .ok (resolveReading (hasMarker line0) (lineBody line0) t? fixedX? fxV? fixedZ? fzV?)

/-! ### Line assembler (`SerialCommunication._read_data` buffering loop) -/

/-- Python whitespace for `str.strip()` (ASCII). -/
def spaceChar (c : Char) : Bool :=
  c == ' ' || c == '\t' || c == '\n' || c == '\r' || c == '\x0b' || c == '\x0c'

/-- `line.strip()`: drop leading and trailing whitespace. -/
def strip (l : List Char) : List Char :=
  ((l.dropWhile spaceChar).reverse.dropWhile spaceChar).reverse

/-- `s.split(sep, 1)` when `sep` occurs: the text before the first
occurrence of `sep` and the text after it. -/
def findSub (sep : List Char) : List Char → Option (List Char × List Char)
  | [] => if hasPrefixList sep [] then some ([], ([] : List Char).drop sep.length) else none
  | c :: t =>
    if hasPrefixList sep (c :: t) then some ([], (c :: t).drop sep.length)
    else (findSub sep t).map (fun p => (c :: p.1, p.2))

/-- The `if '\r\n' in buffer / elif '\n' / elif '\r'` split chain.  The
caller only invokes it when a terminator is present, so the final fallback
is unreachable. -/
def splitCandidate (buf : List Char) : List Char × List Char :=
  match findSub ['\r', '\n'] buf with
  | some p => p
  | none =>
    match findSub ['\n'] buf with
    | some p => p
    | none =>
      match findSub ['\r'] buf with
      | some p => p
      | none => (buf, [])

/-- Assembler state: the pending partial-line buffer and the stripped
nonblank lines emitted so far, oldest first. -/
abbrev AsmState := List Char × List (List Char)

/-- The `while '\n' in buffer or '\r' in buffer` loop.  Each iteration
removes at least the one-or-two-character terminator, so `buf.length`
iterations always suffice; the fuel is one more than that. -/
def asmLoop : ℕ → List Char → List (List Char) → AsmState
  | 0, buf, acc => (buf, acc)
  | fuel + 1, buf, acc =>
    if buf.contains '\n' || buf.contains '\r' then
      let p := splitCandidate buf
      let ln := strip p.1
      asmLoop fuel p.2 (if ln.isEmpty then acc else acc ++ [ln])
    else (buf, acc)

/-- Receiving one chunk: `buffer += chunk` and then the split loop. -/
def feed (st : AsmState) (chunk : List Char) : AsmState :=
  asmLoop ((st.1 ++ chunk).length + 1) (st.1 ++ chunk) st.2

def feedAll (st : AsmState) (chunks : List (List Char)) : AsmState :=
  chunks.foldl feed st

/-! ### Connection state (`SerialCommunication.connect` / `disconnect`)

Links opened through `serial.Serial(...)` are modelled by numeric ids drawn
from a counter; `openLinks` is the set of OS-level links currently open.
`connect` constructs a fresh link (when the OS succeeds), stores it in
`serial_port`, sets `is_connected`, and starts reading — the source never
consults `is_connected` first and never closes the previous port. -/

structure CommState where
  serial_port : Option ℕ
  is_connected : Bool
  is_reading : Bool
  deriving DecidableEq, Repr

structure SerialWorld where
  comm : CommState
  openLinks : List ℕ
  nextId : ℕ
  deriving DecidableEq, Repr

def initWorld : SerialWorld :=
  { comm := { serial_port := none, is_connected := false, is_reading := false },
    openLinks := [], nextId := 0 }

/-- `SerialCommunication.connect`: on OS success the fresh link is opened
and assigned, `is_connected := True`, and `start_reading` (connected and
not yet reading ⇒ reading, already reading ⇒ unchanged, i.e. `true` either
way) ; on `SerialException` nothing changes and `False` is returned. -/
def connect (w : SerialWorld) (osSuccess : Bool) : SerialWorld × Bool :=
  if osSuccess then
    ({ comm := { serial_port := some w.nextId, is_connected := true, is_reading := true },
       openLinks := w.nextId :: w.openLinks, nextId := w.nextId + 1 }, true)
  else (w, false)

/-- `SerialCommunication.disconnect`: stop reading, close the current port
if open, clear `is_connected`. -/
def disconnect (w : SerialWorld) : SerialWorld :=
  let links :=
    match w.comm.serial_port with
    | some i => if w.openLinks.contains i then w.openLinks.filter (fun j => j ≠ i) else w.openLinks
    | none => w.openLinks
  { comm := { serial_port := w.comm.serial_port, is_connected := false, is_reading := false },
    openLinks := links, nextId := w.nextId }

/-! ### Data sink (`DataManager`) -/

/-- One row of the durable CSV log, with the fixed 11-column schema. -/
structure CsvRow where
  timestamp : Option ℚ
  is_experiment : Bool
  time : Option ℚ
  force_x : Option ℚ
  force_z : Option ℚ
  fixed_x : Option ℚ
  fixed_z : Option ℚ
  fx : Option ℚ
  fz : Option ℚ
  raw : List Char
  message : Option (List Char)
  deriving DecidableEq, Repr

/-- The `current_data` DataFrame: four equal-length columns.  A missing
force (`np.nan` in the source) is `none`; the time column is always
numeric because the source fills it with `data.get("time", 0)`. -/
structure PlotFrame where
  time : List ℚ
  force_x : List (Option ℚ)
  force_z : List (Option ℚ)
  timestamp : List (Option ℚ)
  deriving DecidableEq, Repr

def emptyFrame : PlotFrame := { time := [], force_x := [], force_z := [], timestamp := [] }

/-- `DataManager` state.  File-system objects are reduced to what the
claims observe: whether the live CSV is open, the rows appended to it, and
the row counter.  Timestamps (`datetime.now()`) are rationals supplied by
the caller. -/
structure DMState where
  plot_max_points : ℕ
  auto_save : Bool
  experiment_start_time : Option ℚ
  is_experiment_running : Bool
  plot_time : List ℚ
  plot_fx : List (Option ℚ)
  plot_fz : List (Option ℚ)
  plot_timestamp : List (Option ℚ)
  current_data : PlotFrame
  live_csv_open : Bool
  csv_rows : List CsvRow
  rows_written : ℕ
  deriving DecidableEq, Repr

/-- `DataManager.__init__`: the live-buffer capacity is
`max(100, int(plot_max_points))`. -/
def mkDataManager (plotMaxPoints : ℤ) : DMState :=
  { plot_max_points := (pyMax 100 plotMaxPoints).toNat, auto_save := true,
    experiment_start_time := none, is_experiment_running := false,
    plot_time := [], plot_fx := [], plot_fz := [], plot_timestamp := [],
    current_data := emptyFrame, live_csv_open := false, csv_rows := [], rows_written := 0 }

/-- `DataManager.start_experiment`: record the start time, mark Running,
clear the plotting deques and `current_data`, open a fresh live CSV (header
written, row counter reset). -/
def start_experiment (s : DMState) (startTime : ℚ) : DMState :=
  { s with
    experiment_start_time := some startTime, is_experiment_running := true,
    plot_time := [], plot_fx := [], plot_fz := [], plot_timestamp := [],
    current_data := emptyFrame, live_csv_open := true, csv_rows := [], rows_written := 0 }

/-- `collections.deque(maxlen := cap).append x`: append on the right, and
once more than `cap` entries exist the oldest on the left are dropped. -/
def dequeAppend (cap : ℕ) (l : List α) (x : α) : List α :=
  (l ++ [x]).drop ((l ++ [x]).length - cap)

/-- The last `n` entries of a list. -/
def lastN (n : ℕ) (l : List α) : List α := l.drop (l.length - n)

/-- `data.get("time", 0)`. -/
def timeOrZero (r : Reading) : ℚ := r.time.getD 0

/-- The CSV row serialized from a reading (`data.get(...)` per column). -/
def rowOf (r : Reading) : CsvRow :=
  { timestamp := r.timestamp, is_experiment := r.is_experiment, time := r.time,
    force_x := r.force_x, force_z := r.force_z, fixed_x := r.fixed_x,
    fixed_z := r.fixed_z, fx := r.fx, fz := r.fz, raw := r.raw, message := r.message }

/-- `data["timestamp"] = datetime.now()` when absent. -/
def withTimestamp (r : Reading) (now : ℚ) : Reading :=
  if r.timestamp.isSome then r else { r with timestamp := some now }

/-- `DataManager.add_data_point`.  Returns the new sink state together with
the (possibly timestamp-augmented) reading dict, since the source mutates
the dict in place.  Not running ⇒ immediate return before any mutation.
Otherwise: stream one row to the live CSV when its writer is open (the
success path of the best-effort write), and, only when the reading carries
the experiment flag, push `{time, force_x, force_z, timestamp}` into the
four bounded deques and rebuild `current_data` from their contents. -/
def add_data_point (s : DMState) (data : Reading) (now : ℚ) : DMState × Reading :=
  if !s.is_experiment_running then (s, data)
  else
    let data := withTimestamp data now
    let s1 :=
      if s.live_csv_open then
        { s with csv_rows := s.csv_rows ++ [rowOf data], rows_written := s.rows_written + 1 }
      else s
    if data.is_experiment then
      let pt := dequeAppend s1.plot_max_points s1.plot_time (timeOrZero data)
      let pfx := dequeAppend s1.plot_max_points s1.plot_fx data.force_x
      let pfz := dequeAppend s1.plot_max_points s1.plot_fz data.force_z
      let pts := dequeAppend s1.plot_max_points s1.plot_timestamp data.timestamp
      ({ s1 with
         plot_time := pt, plot_fx := pfx, plot_fz := pfz, plot_timestamp := pts,
         current_data := { time := pt, force_x := pfx, force_z := pfz, timestamp := pts } },
       data)
    else (s1, data)

/-- Fold a batch of readings (each with its arrival clock) into the sink. -/
def ingestAll (s : DMState) (ps : List (Reading × ℚ)) : DMState :=
  ps.foldl (fun st p => (add_data_point st p.1 p.2).1) s

/-- `pandas.Series.max()` over the (never-NaN) time column; `0` for an
empty column to mirror the source's `else 0` guard. -/
def maxList (l : List ℚ) : ℚ :=
  match l with
  | [] => 0
  | h :: t => t.foldl pyMaxQ h

/-- `DataManager.get_experiment_progress`: `0.0` unless running with a
nonempty `current_data`; otherwise `min(max_time / total * 100, 100)` for a
positive total and `0` for a nonpositive one.  (The source's
`isna().all()` guard is vacuous: the time column is filled with
`data.get("time", 0)` and never contains NaN.) -/
def get_experiment_progress (s : DMState) (total_duration : ℚ) : ℚ :=
  if !s.is_experiment_running || s.current_data.time.isEmpty then 0
  else
    let current_time := maxList s.current_data.time
    if 0 < total_duration then pyMinQ (current_time / total_duration * 100) 100 else 0

/-! ### Derived definitions used by the theorems -/

/-- A matched tag whose captured text fails `float` conversion. -/
def tagError : Option (List Char) → Bool
  | none => false
  | some g => (parseFloat g).isNone

/-- Some tag pattern of `parse_data_line` matches the line but its captured
text is not a valid numeral (so the corresponding `float(...)` raises). -/
def anyBadTag (line0 : List Char) : Bool :=
  tagError (searchTag timeTag false (lineBody line0)) ||
  tagError (searchTag fixedXTag false (lineBody line0)) ||
  tagError (searchTag fxTag true (lineBody line0)) ||
  tagError (searchTag fixedZTag false (lineBody line0)) ||
  tagError (searchTag fzTag true (lineBody line0))

/-- The reading decoded from `"Fixed_X:1"`: a measurement without the
experiment marker. -/
def rMeasPlain : Reading :=
  { is_experiment := false, raw := "Fixed_X:1".toList, time := none, fixed_x := some 1,
    fixed_z := none, fx := none, fz := none, force_x := some 1, force_z := none,
    message := none, timestamp := none }

/-- The reading decoded from `">Time:1,Fixed_X:2"`: an experiment-flagged
measurement. -/
def rMeasExp : Reading :=
  { is_experiment := true, raw := "Time:1,Fixed_X:2".toList, time := some 1, fixed_x := some 2,
    fixed_z := none, fx := none, fz := none, force_x := some 2, force_z := none,
    message := none, timestamp := none }

/-- The reading decoded from `">Time:-5,Fixed_X:1"`: an experiment
measurement carrying a negative time value. -/
def rNegTime : Reading :=
  { is_experiment := true, raw := "Time:-5,Fixed_X:1".toList, time := some (-5), fixed_x := some 1,
    fixed_z := none, fx := none, fz := none, force_x := some 1, force_z := none,
    message := none, timestamp := none }

/-- The reading decoded from `"Fixed_X:1.0,Fx:9.0,Fixed_Z:2.0,Fz:8.0"`:
both naming schemes present on both axes. -/
def rBoth : Reading :=
  { is_experiment := false, raw := "Fixed_X:1.0,Fx:9.0,Fixed_Z:2.0,Fz:8.0".toList,
    time := none, fixed_x := some 1, fixed_z := some 2, fx := some 9, fz := some 8,
    force_x := some 1, force_z := some 2, message := none, timestamp := none }

/-- A sink that has just started a run (capacity argument 5000). -/
def s0run : DMState := start_experiment (mkDataManager 5000) 0

/-- The started sink after ingesting the negative-time measurement. -/
def sNeg : DMState := (add_data_point s0run rNegTime 0).1

/-- The started sink after ingesting one ordinary experiment measurement. -/
def sPos : DMState := (add_data_point s0run rMeasExp 0).1

/-- A freshly started sink with capacity argument 100 (capacity 100). -/
def s100run : DMState := start_experiment (mkDataManager 100) 0

/-- World after one successful `connect` from the initial state. -/
def w1 : SerialWorld := (connect initWorld true).1

/-- World after a second successful `connect` while already connected. -/
def w2 : SerialWorld := (connect w1 true).1

/-- The byte stream of the assembler claim. -/
def streamS : List Char := "a\r\nb\nc\r".toList

/-- Assembler state reached after any chunking of the first `k` characters
of `streamS` (constant for `k ≥ 7`). -/
def asmTable : ℕ → AsmState
  | 0 => ([], [])
  | 1 => (['a'], [])
  | 2 => ([], [['a']])
  | 3 => ([], [['a']])
  | 4 => (['b'], [['a']])
  | 5 => ([], [['a'], ['b']])
  | 6 => (['c'], [['a'], ['b']])
  | _ => ([], [['a'], ['b'], ['c']])

/-- Invariant of the chunk induction: the assembler state matches the table
entry for the number of characters consumed so far, and the unconsumed
remainder is the matching suffix of `streamS`. -/
def asmInvB (st : AsmState) (rem : List Char) : Bool :=
  (List.range 8).any (fun k => st == asmTable k && rem == streamS.drop k)

/-- Time pushed into the live buffer for one ingested reading. -/
def entryTime (p : Reading × ℚ) : ℚ := timeOrZero p.1

def entryFx (p : Reading × ℚ) : Option ℚ := p.1.force_x

def entryFz (p : Reading × ℚ) : Option ℚ := p.1.force_z

/-- Timestamp pushed into the live buffer: the reading's own timestamp when
present, otherwise the arrival clock. -/
def entryTs (p : Reading × ℚ) : Option ℚ := some (p.1.timestamp.getD p.2)

/-- The CSV row streamed for one ingested reading. -/
def entryRow (p : Reading × ℚ) : CsvRow := rowOf (withTimestamp p.1 p.2)

/-! ### Helper lemmas -/

section
attribute [local semireducible] Rat.add Rat.mul Rat.sub Rat.inv Rat.ofScientific

lemma add_data_point_idle {s : DMState} {r : Reading} {now : ℚ}
    (h : s.is_experiment_running = false) : add_data_point s r now = (s, r) := by
  simp [add_data_point, h]

lemma pyMinQ_le_right (a b : ℚ) : pyMinQ a b ≤ b := by
  unfold pyMinQ; split
  · assumption
  · exact le_rfl

lemma le_pyMinQ {c a b : ℚ} (h1 : c ≤ a) (h2 : c ≤ b) : c ≤ pyMinQ a b := by
  unfold pyMinQ; split
  · exact h1
  · exact h2

lemma pyMinQ_mono_left {a a2 b : ℚ} (h : a ≤ a2) : pyMinQ a b ≤ pyMinQ a2 b := by
  unfold pyMinQ
  split
  · split
    · exact h
    · assumption
  · split
    · exact le_trans (le_of_not_le (by assumption)) h
    · exact le_rfl

lemma le_pyMaxQ_left (a b : ℚ) : a ≤ pyMaxQ a b := by
  unfold pyMaxQ; split
  · assumption
  · exact le_rfl

lemma le_pyMaxQ_right (a b : ℚ) : b ≤ pyMaxQ a b := by
  unfold pyMaxQ; split
  · exact le_rfl
  · exact le_of_not_le (by assumption)

lemma foldl_pyMaxQ_init (l : List ℚ) (a : ℚ) : a ≤ l.foldl pyMaxQ a := by
  induction l generalizing a with
  | nil => exact le_rfl
  | cons h t ih => exact le_trans (le_pyMaxQ_left a h) (ih (pyMaxQ a h))

lemma foldl_pyMaxQ_mem {x : ℚ} {l : List ℚ} (a : ℚ) (h : x ∈ l) : x ≤ l.foldl pyMaxQ a := by
  induction l generalizing a with
  | nil => cases h
  | cons hd t ih =>
    rcases List.mem_cons.1 h with h1 | h1
    · subst h1; exact le_trans (le_pyMaxQ_right a x) (foldl_pyMaxQ_init t _)
    · exact ih _ h1

lemma foldl_pyMaxQ_le {m : ℚ} {l : List ℚ} {a : ℚ} (ha : a ≤ m) (h : ∀ x ∈ l, x ≤ m) :
    l.foldl pyMaxQ a ≤ m := by
  induction l generalizing a with
  | nil => exact ha
  | cons hd t ih =>
    refine ih ?_ (fun x hx => h x (List.mem_cons_of_mem _ hx))
    unfold pyMaxQ; split
    · exact h hd (List.mem_cons_self hd t)
    · exact ha

lemma le_maxList {x : ℚ} {l : List ℚ} (h : x ∈ l) : x ≤ maxList l := by
  cases l with
  | nil => cases h
  | cons hd t =>
    rcases List.mem_cons.1 h with h1 | h1
    · subst h1; exact foldl_pyMaxQ_init t x
    · exact foldl_pyMaxQ_mem hd h1

lemma maxList_le {m : ℚ} {l : List ℚ} (hne : l ≠ []) (h : ∀ x ∈ l, x ≤ m) : maxList l ≤ m := by
  cases l with
  | nil => exact absurd rfl hne
  | cons hd t =>
    exact foldl_pyMaxQ_le (h hd (List.mem_cons_self hd t))
      (fun x hx => h x (List.mem_cons_of_mem _ hx))

end

/-! ### Claim theorems -/

section
attribute [local semireducible] Rat.add Rat.mul Rat.sub Rat.inv Rat.ofScientific

/-- C9: when the sink is not Running, `add_data_point` is a complete no-op:
the state (durable log, row counter, live buffer, published snapshot) is
returned unchanged, and the reading dict is not modified (in particular no
timestamp is inserted). -/
theorem C9_ingest_noop_when_idle (s : DMState) (r : Reading) (now : ℚ)
    (h : s.is_experiment_running = false) : add_data_point s r now = (s, r) :=
  add_data_point_idle h

/-- Witness for C9 at a concrete idle sink and reading. -/
theorem C9_witness : (mkDataManager 5000).is_experiment_running = false ∧
    add_data_point (mkDataManager 5000) rMeasExp 3 = (mkDataManager 5000, rMeasExp) :=
  ⟨rfl, C9_ingest_noop_when_idle (mkDataManager 5000) rMeasExp 3 rfl⟩

/-- C10: the constructor clamps the configured capacity to at least 100
(`max(100, int(plot_max_points))`), so a sink configured with a capacity
below 100 has effective capacity 100 and its deques retain up to 100
entries without evicting. -/
theorem C10_capacity_clamped (C : ℤ) (h : C < 100) :
    (mkDataManager C).plot_max_points = 100 ∧
    (∀ D : ℤ, 100 ≤ (mkDataManager D).plot_max_points) ∧
    (∀ (l : List ℚ) (x : ℚ), l.length < 100 →
      dequeAppend (mkDataManager C).plot_max_points l x = l ++ [x]) := by
  have h1 : (mkDataManager C).plot_max_points = 100 := by
    simp only [mkDataManager, pyMax]
    rw [if_neg (by omega)]
    rfl
  refine ⟨h1, ?_, ?_⟩
  · intro D
    simp only [mkDataManager, pyMax]
    split <;> omega
  · intro l x hl
    rw [h1]
    unfold dequeAppend
    have h2 : (l ++ [x]).length - 100 = 0 := by
      simp only [List.length_append, List.length_cons, List.length_nil]
      omega
    rw [h2, List.drop_zero]

/-- Witness for C10 at capacity argument 5. -/
theorem C10_witness : (5 : ℤ) < 100 ∧
    ((mkDataManager 5).plot_max_points = 100 ∧
     (∀ D : ℤ, 100 ≤ (mkDataManager D).plot_max_points) ∧
     (∀ (l : List ℚ) (x : ℚ), l.length < 100 →
       dequeAppend (mkDataManager 5).plot_max_points l x = l ++ [x])) :=
  ⟨by decide, C10_capacity_clamped 5 (by decide)⟩

/-- C5 counterexample: two consecutive successful `connect` calls.  After
the first, the state is Connected with link 0 open; the second call opens a
second OS-level link (id 1), stores it, and leaves link 0 open and
unreferenced — contradicting "at most one open link, opening while
connected is a no-op or an error". -/
theorem C5_connect_double_cex :
    w1.comm.is_connected = true ∧ (connect w1 true).2 = true ∧
    w2.comm.serial_port = some 1 ∧ w2.openLinks = [1, 0] ∧
    w2.openLinks.length = 2 := by decide

/-- C5 amended: `connect` never consults the connected state; a successful
`connect` while already connected opens a fresh link and replaces
`serial_port` with it, while the previously held link stays open
(abandoned), so the number of open links grows by one. -/
theorem C5_connect_no_guard (w : SerialWorld) (i : ℕ)
    (_h1 : w.comm.is_connected = true) (_h2 : w.comm.serial_port = some i)
    (h3 : i ∈ w.openLinks) :
    (connect w true).1.comm.serial_port = some w.nextId ∧
    (connect w true).1.comm.is_connected = true ∧
    i ∈ (connect w true).1.openLinks ∧
    (connect w true).1.openLinks.length = w.openLinks.length + 1 := by
  refine ⟨rfl, rfl, ?_, ?_⟩
  · exact List.mem_cons_of_mem _ h3
  · simp [connect]

/-- Witness for C5's amended theorem at the singly-connected world. -/
theorem C5_witness :
    w1.comm.is_connected = true ∧ w1.comm.serial_port = some 0 ∧ 0 ∈ w1.openLinks ∧
    ((connect w1 true).1.comm.serial_port = some w1.nextId ∧
     (connect w1 true).1.comm.is_connected = true ∧
     0 ∈ (connect w1 true).1.openLinks ∧
     (connect w1 true).1.openLinks.length = w1.openLinks.length + 1) :=
  ⟨by decide, by decide, by decide,
   C5_connect_no_guard w1 0 (by decide) (by decide) (by decide)⟩

lemma tagError_of_ok {o : Option (List Char)} {v : Option ℚ}
    (h : convertGroup o = .ok v) : tagError o = false := by
  cases o with
  | none => rfl
  | some g =>
    cases hg : parseFloat g with
    | some w => simp [tagError, hg]
    | none => simp [convertGroup, hg] at h

/-- C1 counterexample: in `"Time:...,Fixed_X:1.0"` the `Time` tag matches
with the invalid numeral `"..."` while `Fixed_X` carries the valid value
`1.0`; the claim says parse returns normally with `time` absent and
`force_x = 1.0`, but the code raises `ValueError` and the whole parse
fails, surfacing no fields at all. -/
theorem C1_parse_fatal_cex :
    parse_data_line "Time:...,Fixed_X:1.0".toList = .error () ∧
    searchTag timeTag false "Time:...,Fixed_X:1.0".toList = some "...".toList ∧
    parseFloat "...".toList = none ∧
    searchTag fixedXTag false "Time:...,Fixed_X:1.0".toList = some "1.0".toList ∧
    parseFloat "1.0".toList = some 1 := by decide

/-- C1 amended: a matched tag whose captured text is not a valid numeral is
a fatal parse error — `float(...)` raises, the exception propagates, and
the whole line yields no Reading (no other field of the line is surfaced),
rather than the failing field being locally treated as absent. -/
theorem C1_badtag_aborts_parse (line0 : List Char) (h : anyBadTag line0 = true) :
    parse_data_line line0 = .error () := by
  unfold parse_data_line
  rcases h1 : convertGroup (searchTag timeTag false (lineBody line0)) with e | t?
  · cases e; simp
  rcases h2 : convertGroup (searchTag fixedXTag false (lineBody line0)) with e | a
  · cases e; simp
  rcases h3 : convertGroup (searchTag fxTag true (lineBody line0)) with e | b
  · cases e; simp
  rcases h4 : convertGroup (searchTag fixedZTag false (lineBody line0)) with e | c
  · cases e; simp
  rcases h5 : convertGroup (searchTag fzTag true (lineBody line0)) with e | d
  · cases e; simp
  exfalso
  unfold anyBadTag at h
  rw [tagError_of_ok h1, tagError_of_ok h2, tagError_of_ok h3,
    tagError_of_ok h4, tagError_of_ok h5] at h
  simp at h

/-- Witness for C1's amended theorem: `"Time:1,Fz:5-6"` has a matched `Fz`
tag with invalid numeral `5-6`, and parse fails entirely. -/
theorem C1_witness : anyBadTag "Time:1,Fz:5-6".toList = true ∧
    parse_data_line "Time:1,Fz:5-6".toList = .error () :=
  ⟨by decide, C1_badtag_aborts_parse _ (by decide)⟩

lemma resolve_classified {isExp : Bool} {line : List Char} {t? a b c d : Option ℚ}
    {r : Reading} (h : resolveReading isExp line t? a b c d = some r) :
    ((r.force_x.isSome = true ∨ r.force_z.isSome = true) ∧ r.message = none) ∨
    (r.message.isSome = true ∧ r.force_x = none ∧ r.force_z = none) := by
  simp only [resolveReading] at h
  by_cases hB : ((resolveForce a b).isSome || (resolveForce c d).isSome) = true
  · rw [if_pos hB] at h
    cases h
    left
    exact ⟨Bool.or_eq_true _ _ ▸ hB, rfl⟩
  · rw [if_neg hB] at h
    by_cases hK : (statusKeywords.any fun k => containsSub k (lowerList line)) = true
    · rw [if_pos hK] at h
      cases h
      right
      rw [Bool.or_eq_true, not_or, Option.not_isSome_iff_eq_none,
        Option.not_isSome_iff_eq_none] at hB
      exact ⟨rfl, hB.1, hB.2⟩
    · rw [if_neg hK] at h
      cases h

lemma parse_ok_elim {line0 : List Char} {res : Option Reading}
    (h : parse_data_line line0 = .ok res) :
    ∃ t? fixedX? fxV? fixedZ? fzV?,
      convertGroup (searchTag timeTag false (lineBody line0)) = .ok t? ∧
      convertGroup (searchTag fixedXTag false (lineBody line0)) = .ok fixedX? ∧
      convertGroup (searchTag fxTag true (lineBody line0)) = .ok fxV? ∧
      convertGroup (searchTag fixedZTag false (lineBody line0)) = .ok fixedZ? ∧
      convertGroup (searchTag fzTag true (lineBody line0)) = .ok fzV? ∧
      res = resolveReading (hasMarker line0) (lineBody line0) t? fixedX? fxV? fixedZ? fzV? := by
  unfold parse_data_line at h
  rcases h1 : convertGroup (searchTag timeTag false (lineBody line0)) with e | t?
  · rw [h1] at h; simp at h
  rw [h1] at h
  rcases h2 : convertGroup (searchTag fixedXTag false (lineBody line0)) with e | a
  · rw [h2] at h; simp at h
  rw [h2] at h
  rcases h3 : convertGroup (searchTag fxTag true (lineBody line0)) with e | b
  · rw [h3] at h; simp at h
  rw [h3] at h
  rcases h4 : convertGroup (searchTag fixedZTag false (lineBody line0)) with e | c
  · rw [h4] at h; simp at h
  rw [h4] at h
  rcases h5 : convertGroup (searchTag fzTag true (lineBody line0)) with e | d
  · rw [h5] at h; simp at h
  rw [h5] at h
  simp only [Except.ok.injEq] at h
  exact ⟨t?, a, b, c, d, rfl, rfl, rfl, rfl, rfl, h.symm⟩

/-- C7 counterexample: on the line `"Fixed_X:1.2-3"` the parser neither
returns a measurement Reading, nor a status Reading, nor drops the line —
it raises, a fourth outcome outside the claimed trichotomy. -/
theorem C7_trichotomy_cex :
    parse_data_line "Fixed_X:1.2-3".toList = .error () ∧
    ∀ res : Option Reading, parse_data_line "Fixed_X:1.2-3".toList ≠ .ok res := by
  have h0 : parse_data_line "Fixed_X:1.2-3".toList = .error () := by decide
  refine ⟨h0, ?_⟩
  intro res h
  rw [h0] at h
  exact Except.noConfusion h

/-- C7 amended: whenever `parse_data_line` returns normally, the result is
exactly one of the three claimed cases — nothing (line dropped), a
measurement Reading (at least one canonical force set and no message), or
a status Reading (message set and no canonical force); on lines whose
matched tag fails numeric conversion the parser instead raises and returns
nothing at all. -/
theorem C7_parse_trichotomy (line0 : List Char) (res : Option Reading)
    (h : parse_data_line line0 = .ok res) :
    res = none ∨ ∃ r, res = some r ∧
      (((r.force_x.isSome = true ∨ r.force_z.isSome = true) ∧ r.message = none) ∨
       (r.message.isSome = true ∧ r.force_x = none ∧ r.force_z = none)) := by
  obtain ⟨t?, a, b, c, d, _, _, _, _, _, hres⟩ := parse_ok_elim h
  rcases hr : resolveReading (hasMarker line0) (lineBody line0) t? a b c d with _ | r
  · left; rw [hres, hr]
  · right; exact ⟨r, by rw [hres, hr], resolve_classified hr⟩

/-- Witness for C7's amended theorem at the measurement line `"Fixed_X:1"`. -/
theorem C7_witness :
    parse_data_line "Fixed_X:1".toList = .ok (some rMeasPlain) ∧
    ((some rMeasPlain : Option Reading) = none ∨ ∃ r, (some rMeasPlain : Option Reading) = some r ∧
      (((r.force_x.isSome = true ∨ r.force_z.isSome = true) ∧ r.message = none) ∨
       (r.message.isSome = true ∧ r.force_x = none ∧ r.force_z = none))) :=
  ⟨by decide, C7_parse_trichotomy "Fixed_X:1".toList (some rMeasPlain) (by decide)⟩

lemma resolveForce_fixed (a : ℚ) (b : Option ℚ) : resolveForce (some a) b = some a := by
  cases b <;> simp [resolveForce]

/-- C4: when one line carries both the fixed-naming and the short-naming
value for an axis (both converting to valid numerals) and parse returns a
Reading, the canonical force of that axis holds the fixed-naming value,
while the short-naming value is still recorded in `fx`/`fz` and does not
override the canonical field. -/
theorem C4_fixed_precedence (line0 : List Char) (r : Reading)
    (hp : parse_data_line line0 = .ok (some r)) :
    (∀ (gx gfx : List Char) (a b : ℚ),
      searchTag fixedXTag false (lineBody line0) = some gx → parseFloat gx = some a →
      searchTag fxTag true (lineBody line0) = some gfx → parseFloat gfx = some b →
      r.force_x = some a ∧ r.fx = some b ∧ r.fixed_x = some a) ∧
    (∀ (gz gfz : List Char) (a b : ℚ),
      searchTag fixedZTag false (lineBody line0) = some gz → parseFloat gz = some a →
      searchTag fzTag true (lineBody line0) = some gfz → parseFloat gfz = some b →
      r.force_z = some a ∧ r.fz = some b ∧ r.fixed_z = some a) := by
  obtain ⟨t?, xa, xb, za, zb, h1, h2, h3, h4, h5, hres⟩ := parse_ok_elim hp
  constructor
  · intro gx gfx a b hgx hax hgfx hbx
    rw [hgx] at h2
    simp only [convertGroup, hax, Except.ok.injEq] at h2
    rw [hgfx] at h3
    simp only [convertGroup, hbx, Except.ok.injEq] at h3
    subst h2 h3
    simp only [resolveReading, resolveForce_fixed] at hres
    rw [if_pos (by simp)] at hres
    simp only [Option.some.injEq] at hres
    subst hres
    exact ⟨rfl, rfl, rfl⟩
  · intro gz gfz a b hgz haz hgfz hbz
    rw [hgz] at h4
    simp only [convertGroup, haz, Except.ok.injEq] at h4
    rw [hgfz] at h5
    simp only [convertGroup, hbz, Except.ok.injEq] at h5
    subst h4 h5
    simp only [resolveReading, resolveForce_fixed] at hres
    rw [if_pos (by simp)] at hres
    simp only [Option.some.injEq] at hres
    subst hres
    exact ⟨rfl, rfl, rfl⟩

/-- Witness for C4 at a line carrying both schemes on both axes. -/
theorem C4_witness :
    parse_data_line "Fixed_X:1.0,Fx:9.0,Fixed_Z:2.0,Fz:8.0".toList = .ok (some rBoth) ∧
    (rBoth.force_x = some 1 ∧ rBoth.fx = some 9 ∧ rBoth.fixed_x = some 1) ∧
    (rBoth.force_z = some 2 ∧ rBoth.fz = some 8 ∧ rBoth.fixed_z = some 2) :=
  ⟨by decide,
   (C4_fixed_precedence "Fixed_X:1.0,Fx:9.0,Fixed_Z:2.0,Fz:8.0".toList rBoth (by decide)).1
     "1.0".toList "9.0".toList 1 9 (by decide) (by decide) (by decide) (by decide),
   (C4_fixed_precedence "Fixed_X:1.0,Fx:9.0,Fixed_Z:2.0,Fz:8.0".toList rBoth (by decide)).2
     "2.0".toList "8.0".toList 2 8 (by decide) (by decide) (by decide) (by decide)⟩

lemma withTimestamp_time (r : Reading) (now : ℚ) : (withTimestamp r now).time = r.time := by
  unfold withTimestamp; split <;> rfl

lemma withTimestamp_force_x (r : Reading) (now : ℚ) :
    (withTimestamp r now).force_x = r.force_x := by
  unfold withTimestamp; split <;> rfl

lemma withTimestamp_force_z (r : Reading) (now : ℚ) :
    (withTimestamp r now).force_z = r.force_z := by
  unfold withTimestamp; split <;> rfl

lemma withTimestamp_is_experiment (r : Reading) (now : ℚ) :
    (withTimestamp r now).is_experiment = r.is_experiment := by
  unfold withTimestamp; split <;> rfl

lemma withTimestamp_timestamp (r : Reading) (now : ℚ) :
    (withTimestamp r now).timestamp = some (r.timestamp.getD now) := by
  cases h : r.timestamp <;> simp [withTimestamp, h]

/-- What one ingested experiment-flagged reading does to the live buffers:
each of the four deques gets the corresponding `{time, force_x, force_z,
timestamp}` component appended (bounded by the capacity), and
`current_data` is rebuilt from the deques' new contents. -/
lemma add_exp_buffers (s : DMState) (r : Reading) (now : ℚ)
    (h1 : s.is_experiment_running = true) (h2 : r.is_experiment = true) :
    (add_data_point s r now).1.plot_time
        = dequeAppend s.plot_max_points s.plot_time (timeOrZero r) ∧
    (add_data_point s r now).1.plot_fx
        = dequeAppend s.plot_max_points s.plot_fx r.force_x ∧
    (add_data_point s r now).1.plot_fz
        = dequeAppend s.plot_max_points s.plot_fz r.force_z ∧
    (add_data_point s r now).1.plot_timestamp
        = dequeAppend s.plot_max_points s.plot_timestamp (some (r.timestamp.getD now)) ∧
    (add_data_point s r now).1.current_data =
      { time := (add_data_point s r now).1.plot_time,
        force_x := (add_data_point s r now).1.plot_fx,
        force_z := (add_data_point s r now).1.plot_fz,
        timestamp := (add_data_point s r now).1.plot_timestamp } ∧
    (add_data_point s r now).1.is_experiment_running = true ∧
    (add_data_point s r now).1.plot_max_points = s.plot_max_points := by
  have hexp : (withTimestamp r now).is_experiment = true := by
    rw [withTimestamp_is_experiment]; exact h2
  unfold add_data_point
  rcases hcsv : s.live_csv_open <;>
    simp [h1, hcsv, hexp, timeOrZero, withTimestamp_time, withTimestamp_force_x,
      withTimestamp_force_z, withTimestamp_timestamp]

/-- C2 counterexample: `"Fixed_X:1"` decodes to a measurement Reading
(`force_x` set) without the experiment flag; while the sink is Running,
ingesting it streams a durable row (counter becomes 1) but appends nothing
to the live buffer and leaves the snapshot empty — contradicting "for every
ingested measurement Reading, ingest appends one entry". -/
theorem C2_measurement_not_buffered_cex :
    parse_data_line "Fixed_X:1".toList = .ok (some rMeasPlain) ∧
    rMeasPlain.force_x.isSome = true ∧
    rMeasPlain.is_experiment = false ∧
    s0run.is_experiment_running = true ∧
    (add_data_point s0run rMeasPlain 1).1.rows_written = 1 ∧
    (add_data_point s0run rMeasPlain 1).1.plot_time = [] ∧
    (add_data_point s0run rMeasPlain 1).1.current_data = emptyFrame := by decide

/-- C2 amended: while Running, the live-buffer push is gated on the
reading's `is_experiment` flag, not on it being a measurement: every
ingested experiment-flagged Reading (measurement or not) gets one
`{time, force_x, force_z, timestamp}` entry appended to the bounded live
buffer and a fresh snapshot materialized from the buffer contents, while
measurement Readings without the flag are not buffered. -/
theorem C2_experiment_flag_buffers (s : DMState) (r : Reading) (now : ℚ)
    (h1 : s.is_experiment_running = true) :
    (r.is_experiment = true →
      (add_data_point s r now).1.plot_time
          = dequeAppend s.plot_max_points s.plot_time (timeOrZero r) ∧
      (add_data_point s r now).1.plot_fx
          = dequeAppend s.plot_max_points s.plot_fx r.force_x ∧
      (add_data_point s r now).1.plot_fz
          = dequeAppend s.plot_max_points s.plot_fz r.force_z ∧
      (add_data_point s r now).1.plot_timestamp
          = dequeAppend s.plot_max_points s.plot_timestamp (some (r.timestamp.getD now)) ∧
      (add_data_point s r now).1.current_data =
        { time := (add_data_point s r now).1.plot_time,
          force_x := (add_data_point s r now).1.plot_fx,
          force_z := (add_data_point s r now).1.plot_fz,
          timestamp := (add_data_point s r now).1.plot_timestamp }) ∧
    (r.is_experiment = false →
      (add_data_point s r now).1.plot_time = s.plot_time ∧
      (add_data_point s r now).1.current_data = s.current_data) := by
  constructor
  · intro h2
    obtain ⟨e1, e2, e3, e4, e5, _, _⟩ := add_exp_buffers s r now h1 h2
    exact ⟨e1, e2, e3, e4, e5⟩
  · intro h2
    have hexp : (withTimestamp r now).is_experiment = false := by
      rw [withTimestamp_is_experiment]; exact h2
    unfold add_data_point
    rcases hcsv : s.live_csv_open <;> simp [h1, hcsv, hexp]

/-- Witness for C2's amended theorem at a running sink, for both an
experiment-flagged reading and an unflagged measurement. -/
theorem C2_witness :
    s0run.is_experiment_running = true ∧ rMeasExp.is_experiment = true ∧
    (add_data_point s0run rMeasExp 2).1.plot_time
        = dequeAppend s0run.plot_max_points s0run.plot_time (timeOrZero rMeasExp) ∧
    (add_data_point s0run rMeasPlain 2).1.current_data = s0run.current_data :=
  ⟨rfl, rfl, ((C2_experiment_flag_buffers s0run rMeasExp 2 rfl).1 rfl).1,
   ((C2_experiment_flag_buffers s0run rMeasPlain 2 rfl).2 rfl).2⟩

lemma mem_dequeAppend_self {α : Type} {cap : ℕ} (hcap : 0 < cap) (l : List α) (x : α) :
    x ∈ dequeAppend cap l x := by
  unfold dequeAppend
  rw [List.drop_append_of_le_length
    (by simp only [List.length_append, List.length_cons, List.length_nil]; omega)]
  exact List.mem_append_right _ (by simp)

lemma maxList_nonneg {l : List ℚ} (hne : l ≠ []) (h : ∀ t ∈ l, 0 ≤ t) : 0 ≤ maxList l := by
  cases l with
  | nil => exact absurd rfl hne
  | cons hd t =>
    exact le_trans (h hd (List.mem_cons_self hd t)) (le_maxList (List.mem_cons_self hd t))

lemma progress_cases (s : DMState) (d : ℚ) :
    get_experiment_progress s d =
      if (!s.is_experiment_running || s.current_data.time.isEmpty) = true then 0
      else if 0 < d then pyMinQ (maxList s.current_data.time / d * 100) 100 else 0 := rfl

lemma div_mul_hundred_mono {a b d : ℚ} (hab : a ≤ b) (hd : 0 < d) :
    a / d * 100 ≤ b / d * 100 :=
  mul_le_mul_of_nonneg_right ((div_le_div_iff_of_pos_right hd).mpr hab) (by norm_num)

/-- C6 counterexample: the measurement line `">Time:-5,Fixed_X:1"` is
decodable and ingestable while Running; after ingesting it,
`progress(10)` is `-50` — outside `[0,100]` — and it decreased from `0`,
so the claimed range and monotonicity both fail. -/
theorem C6_progress_negative_cex :
    parse_data_line ">Time:-5,Fixed_X:1".toList = .ok (some rNegTime) ∧
    s0run.is_experiment_running = true ∧
    get_experiment_progress s0run 10 = 0 ∧
    get_experiment_progress sNeg 10 = -50 ∧
    ¬(0 ≤ get_experiment_progress sNeg 10) := by decide

/-- C6 amended: progress is at most 100; it is 0 when not running, when
the live snapshot is empty, or when `total_duration ≤ 0`; it is
nonnegative whenever all buffered times are nonnegative (a negative
reported `Time` makes it negative); and it is monotonically nondecreasing
under ingestion of experiment-flagged readings whose time dominates the
buffered times and is nonnegative (for a positive buffer capacity). -/
theorem C6_progress_props (s : DMState) (d : ℚ) :
    get_experiment_progress s d ≤ 100 ∧
    (s.is_experiment_running = false → get_experiment_progress s d = 0) ∧
    (s.current_data.time = [] → get_experiment_progress s d = 0) ∧
    (d ≤ 0 → get_experiment_progress s d = 0) ∧
    ((∀ t ∈ s.current_data.time, 0 ≤ t) → 0 ≤ get_experiment_progress s d) ∧
    (∀ (r : Reading) (now : ℚ), r.is_experiment = true → 0 ≤ timeOrZero r →
      (∀ t ∈ s.current_data.time, t ≤ timeOrZero r) → 0 < s.plot_max_points →
      get_experiment_progress s d ≤ get_experiment_progress (add_data_point s r now).1 d) := by
  refine ⟨?_, ?_, ?_, ?_, ?_, ?_⟩
  · rw [progress_cases]
    split
    · norm_num
    · split
      · exact pyMinQ_le_right _ _
      · norm_num
  · intro h
    rw [progress_cases, if_pos (by rw [h]; rfl)]
  · intro h
    rw [progress_cases, if_pos (by rw [h]; simp)]
  · intro h
    rw [progress_cases]
    split
    · rfl
    · rw [if_neg (not_lt.mpr h)]
  · intro hall
    rw [progress_cases]
    split
    · norm_num
    · rename_i hcond
      have hne : s.current_data.time ≠ [] := by
        intro hh
        rw [hh] at hcond
        simp at hcond
      split
      · rename_i hd
        refine le_pyMinQ ?_ (by norm_num)
        exact mul_nonneg (div_nonneg (maxList_nonneg hne hall) hd.le) (by norm_num)
      · norm_num
  · intro r now hexp htn hall hcap
    rcases hrun : s.is_experiment_running with _ | _
    · simp [add_data_point_idle hrun]
    · obtain ⟨e1, _, _, _, e5, e6, _⟩ := add_exp_buffers s r now hrun hexp
      have hcol : (add_data_point s r now).1.current_data.time
          = dequeAppend s.plot_max_points s.plot_time (timeOrZero r) := by
        rw [e5]
        exact e1
      have hmem : timeOrZero r ∈ (add_data_point s r now).1.current_data.time := by
        rw [hcol]
        exact mem_dequeAppend_self hcap _ _
      have hne2 : (add_data_point s r now).1.current_data.time ≠ [] := by
        intro hh
        rw [hh] at hmem
        cases hmem
      have hmax2 : timeOrZero r ≤ maxList (add_data_point s r now).1.current_data.time :=
        le_maxList hmem
      have hc2 : (!(add_data_point s r now).1.is_experiment_running
          || (add_data_point s r now).1.current_data.time.isEmpty) = false := by
        rw [e6]
        simp only [Bool.not_true, Bool.false_or]
        rcases hx : (add_data_point s r now).1.current_data.time with _ | ⟨a, t⟩
        · exact absurd hx hne2
        · rfl
      rw [progress_cases s d, progress_cases (add_data_point s r now).1 d, hc2]
      simp only [Bool.false_eq_true, if_false]
      rcases hemp : s.current_data.time.isEmpty with _ | _
      · rw [hrun]
        simp only [Bool.not_true, Bool.or_false, Bool.false_eq_true, if_false]
        have hne1 : s.current_data.time ≠ [] := by
          intro hh
          rw [hh] at hemp
          simp at hemp
        by_cases hd : 0 < d
        · rw [if_pos hd, if_pos hd]
          exact pyMinQ_mono_left
            (div_mul_hundred_mono (le_trans (maxList_le hne1 hall) hmax2) hd)
        · rw [if_neg hd, if_neg hd]
      · rw [hrun]
        simp only [Bool.not_true, Bool.or_true, Bool.false_or, if_true]
        by_cases hd : 0 < d
        · rw [if_pos hd]
          refine le_pyMinQ ?_ (by norm_num)
          exact mul_nonneg (div_nonneg (le_trans htn hmax2) hd.le) (by norm_num)
        · rw [if_neg hd]

/-- Witness for C6's amended theorem at concrete sink states, discharging
every hypothesis. -/
theorem C6_witness :
    get_experiment_progress sPos 10 ≤ 100 ∧
    get_experiment_progress (mkDataManager 5000) 10 = 0 ∧
    get_experiment_progress sPos 0 = 0 ∧
    0 ≤ get_experiment_progress sPos 10 ∧
    get_experiment_progress sPos 10 ≤ get_experiment_progress (add_data_point sPos rMeasExp 1).1 10 :=
  ⟨(C6_progress_props sPos 10).1,
   (C6_progress_props (mkDataManager 5000) 10).2.1 rfl,
   (C6_progress_props sPos 0).2.2.2.1 le_rfl,
   (C6_progress_props sPos 10).2.2.2.2.1 (by decide),
   (C6_progress_props sPos 10).2.2.2.2.2 rMeasExp 1 (by decide) (by decide)
     (by decide) (by decide)⟩

lemma lastN_of_le {α : Type} {l : List α} {n : ℕ} (h : l.length ≤ n) : lastN n l = l := by
  unfold lastN
  rw [Nat.sub_eq_zero_of_le h, List.drop_zero]

lemma dequeAppend_len_le {α : Type} {cap : ℕ} (l : List α) (x : α)
    (h : l.length ≤ cap) : (dequeAppend cap l x).length ≤ cap := by
  unfold dequeAppend
  rw [List.length_drop, List.length_append]
  simp only [List.length_cons, List.length_nil]
  omega

lemma lastN_idem_append {α : Type} (n : ℕ) (l m : List α) :
    lastN n (lastN n l ++ m) = lastN n (l ++ m) := by
  unfold lastN
  rw [List.drop_append_eq_append_drop, List.drop_append_eq_append_drop, List.drop_drop]
  congr 1
  · congr 1
    simp only [List.length_append, List.length_drop]
    omega
  · congr 1
    simp only [List.length_append, List.length_drop]
    omega

lemma lastN_map {α β : Type} (f : α → β) (n : ℕ) (l : List α) :
    lastN n (l.map f) = (lastN n l).map f := by
  unfold lastN
  rw [List.length_map, List.map_drop]

lemma lastN_length_of_lt {α : Type} {n : ℕ} {l : List α} (h : n < l.length) :
    (lastN n l).length = n := by
  unfold lastN
  rw [List.length_drop]
  omega

lemma add_nonexp_buffers (s : DMState) (r : Reading) (now : ℚ)
    (h2 : r.is_experiment = false) :
    (add_data_point s r now).1.plot_time = s.plot_time ∧
    (add_data_point s r now).1.plot_fx = s.plot_fx ∧
    (add_data_point s r now).1.plot_fz = s.plot_fz ∧
    (add_data_point s r now).1.plot_timestamp = s.plot_timestamp ∧
    (add_data_point s r now).1.current_data = s.current_data ∧
    (add_data_point s r now).1.plot_max_points = s.plot_max_points := by
  have hexp : (withTimestamp r now).is_experiment = false := by
    rw [withTimestamp_is_experiment]; exact h2
  rcases hrun : s.is_experiment_running with _ | _
  · rw [add_data_point_idle hrun]
    exact ⟨rfl, rfl, rfl, rfl, rfl, rfl⟩
  · unfold add_data_point
    rcases hcsv : s.live_csv_open <;> simp [hrun, hcsv, hexp]

lemma add_cap_const (s : DMState) (r : Reading) (now : ℚ) :
    (add_data_point s r now).1.plot_max_points = s.plot_max_points := by
  rcases hrun : s.is_experiment_running with _ | _
  · rw [add_data_point_idle hrun]
  · rcases hexp : r.is_experiment with _ | _
    · exact (add_nonexp_buffers s r now hexp).2.2.2.2.2
    · exact (add_exp_buffers s r now hrun hexp).2.2.2.2.2.2

lemma add_exp_csv (s : DMState) (r : Reading) (now : ℚ)
    (h1 : s.is_experiment_running = true) (h3 : s.live_csv_open = true) :
    (add_data_point s r now).1.csv_rows = s.csv_rows ++ [entryRow (r, now)] ∧
    (add_data_point s r now).1.rows_written = s.rows_written + 1 ∧
    (add_data_point s r now).1.live_csv_open = true ∧
    (add_data_point s r now).1.is_experiment_running = true := by
  unfold add_data_point
  rcases hexp : (withTimestamp r now).is_experiment <;>
    simp [h1, h3, hexp, entryRow]

/-- Full description of the sink after ingesting a batch of
experiment-flagged readings while Running with the live CSV open: the four
live deques hold the last `capacity` pushed entries, the snapshot equals the
deques, and the durable log received one row per reading, in order. -/
lemma ingestAll_exp_spec :
    ∀ (ps : List (Reading × ℚ)) (s : DMState),
    s.is_experiment_running = true → s.live_csv_open = true →
    (∀ p ∈ ps, (p : Reading × ℚ).1.is_experiment = true) →
    s.current_data = { time := s.plot_time, force_x := s.plot_fx,
                       force_z := s.plot_fz, timestamp := s.plot_timestamp } →
    s.plot_time.length ≤ s.plot_max_points →
    s.plot_fx.length ≤ s.plot_max_points →
    s.plot_fz.length ≤ s.plot_max_points →
    s.plot_timestamp.length ≤ s.plot_max_points →
    (ingestAll s ps).is_experiment_running = true ∧
    (ingestAll s ps).live_csv_open = true ∧
    (ingestAll s ps).plot_max_points = s.plot_max_points ∧
    (ingestAll s ps).rows_written = s.rows_written + ps.length ∧
    (ingestAll s ps).csv_rows = s.csv_rows ++ ps.map entryRow ∧
    (ingestAll s ps).plot_time = lastN s.plot_max_points (s.plot_time ++ ps.map entryTime) ∧
    (ingestAll s ps).plot_fx = lastN s.plot_max_points (s.plot_fx ++ ps.map entryFx) ∧
    (ingestAll s ps).plot_fz = lastN s.plot_max_points (s.plot_fz ++ ps.map entryFz) ∧
    (ingestAll s ps).plot_timestamp
        = lastN s.plot_max_points (s.plot_timestamp ++ ps.map entryTs) ∧
    (ingestAll s ps).current_data =
      { time := (ingestAll s ps).plot_time, force_x := (ingestAll s ps).plot_fx,
        force_z := (ingestAll s ps).plot_fz, timestamp := (ingestAll s ps).plot_timestamp } := by
  intro ps
  induction ps with
  | nil =>
    intro s h1 h3 _ hsync hl1 hl2 hl3 hl4
    have hid : ingestAll s [] = s := rfl
    rw [hid]
    refine ⟨h1, h3, rfl, by simp, by simp, ?_, ?_, ?_, ?_, hsync⟩ <;>
      rw [List.map_nil, List.append_nil, lastN_of_le (by assumption)]
  | cons p ps ih =>
    intro s h1 h3 hexp hsync hl1 hl2 hl3 hl4
    have hp : p.1.is_experiment = true := hexp p (List.mem_cons_self p ps)
    obtain ⟨e1, e2, e3, e4, e5, e6, e7⟩ := add_exp_buffers s p.1 p.2 h1 hp
    obtain ⟨c1, c2, c3, _⟩ := add_exp_csv s p.1 p.2 h1 h3
    have hstep : ingestAll s (p :: ps) = ingestAll (add_data_point s p.1 p.2).1 ps := rfl
    have ihh := ih (add_data_point s p.1 p.2).1 e6 c3
      (fun q hq => hexp q (List.mem_cons_of_mem p hq)) e5
      (by rw [e1, e7]; exact dequeAppend_len_le _ _ hl1)
      (by rw [e2, e7]; exact dequeAppend_len_le _ _ hl2)
      (by rw [e3, e7]; exact dequeAppend_len_le _ _ hl3)
      (by rw [e4, e7]; exact dequeAppend_len_le _ _ hl4)
    obtain ⟨i1, i2, i3, i4, i5, i6, i7, i8, i9, i10⟩ := ihh
    rw [hstep]
    refine ⟨i1, i2, ?_, ?_, ?_, ?_, ?_, ?_, ?_, i10⟩
    · rw [i3, e7]
    · rw [i4, c2, List.length_cons]
      omega
    · rw [i5, c1, List.append_assoc, List.map_cons, List.singleton_append]
    · rw [i6, e1, e7]
      show lastN s.plot_max_points
          (lastN s.plot_max_points (s.plot_time ++ [entryTime p]) ++ ps.map entryTime)
        = lastN s.plot_max_points (s.plot_time ++ (p :: ps).map entryTime)
      rw [lastN_idem_append, List.append_assoc, List.map_cons, List.singleton_append]
    · rw [i7, e2, e7]
      show lastN s.plot_max_points
          (lastN s.plot_max_points (s.plot_fx ++ [entryFx p]) ++ ps.map entryFx)
        = lastN s.plot_max_points (s.plot_fx ++ (p :: ps).map entryFx)
      rw [lastN_idem_append, List.append_assoc, List.map_cons, List.singleton_append]
    · rw [i8, e3, e7]
      show lastN s.plot_max_points
          (lastN s.plot_max_points (s.plot_fz ++ [entryFz p]) ++ ps.map entryFz)
        = lastN s.plot_max_points (s.plot_fz ++ (p :: ps).map entryFz)
      rw [lastN_idem_append, List.append_assoc, List.map_cons, List.singleton_append]
    · rw [i9, e4, e7]
      show lastN s.plot_max_points
          (lastN s.plot_max_points (s.plot_timestamp ++ [entryTs p]) ++ ps.map entryTs)
        = lastN s.plot_max_points (s.plot_timestamp ++ (p :: ps).map entryTs)
      rw [lastN_idem_append, List.append_assoc, List.map_cons, List.singleton_append]

lemma ingest_len_bound (qs : List (Reading × ℚ)) : ∀ (s : DMState),
    s.plot_time.length ≤ s.plot_max_points →
    (ingestAll s qs).plot_time.length ≤ s.plot_max_points := by
  induction qs with
  | nil => exact fun s h => h
  | cons p ps ih =>
    intro s h
    have hcap := add_cap_const s p.1 p.2
    have hstep : (add_data_point s p.1 p.2).1.plot_time.length
        ≤ (add_data_point s p.1 p.2).1.plot_max_points := by
      rw [hcap]
      rcases hrun : s.is_experiment_running with _ | _
      · rw [add_data_point_idle hrun]; exact h
      · rcases hexp : p.1.is_experiment with _ | _
        · rw [(add_nonexp_buffers s p.1 p.2 hexp).1]; exact h
        · rw [(add_exp_buffers s p.1 p.2 hrun hexp).1]
          exact dequeAppend_len_le _ _ h
    have hres := ih (add_data_point s p.1 p.2).1 hstep
    rw [hcap] at hres
    exact hres

set_option maxRecDepth 100000 in
/-- C3 counterexample: with capacity C = 100, ingesting N = 101 measurement
Readings that lack the experiment flag leaves the live snapshot with 0
entries, not C, even though all 101 rows reach the durable log — the
claimed "snapshot contains exactly C most-recent readings" fails for
measurement Readings as defined by the claim. -/
theorem C3_nonexp_not_buffered_cex :
    s100run.plot_max_points = 100 ∧
    s100run.is_experiment_running = true ∧
    (∀ p ∈ List.replicate 101 (rMeasPlain, (0 : ℚ)),
      (p : Reading × ℚ).1.force_x.isSome = true) ∧
    100 < (List.replicate 101 (rMeasPlain, (0 : ℚ))).length ∧
    (ingestAll s100run (List.replicate 101 (rMeasPlain, 0))).rows_written = 101 ∧
    (ingestAll s100run (List.replicate 101 (rMeasPlain, 0))).current_data.time.length = 0 := by
  decide

/-- C3 amended: after `start_experiment`, ingesting N experiment-flagged
readings with N greater than the capacity leaves the live snapshot holding
exactly the most recent `capacity` readings' {time, force_x, force_z,
timestamp} values in ingestion order, while the durable log receives one
row per reading in order; and the live buffer never exceeds the capacity
for any batch whatsoever. -/
theorem C3_ring_and_log (C : ℤ) (t0 : ℚ) (ps : List (Reading × ℚ))
    (hexp : ∀ p ∈ ps, (p : Reading × ℚ).1.is_experiment = true)
    (hN : (mkDataManager C).plot_max_points < ps.length) :
    (ingestAll (start_experiment (mkDataManager C) t0) ps).current_data.time
        = (lastN (mkDataManager C).plot_max_points ps).map entryTime ∧
    (ingestAll (start_experiment (mkDataManager C) t0) ps).current_data.force_x
        = (lastN (mkDataManager C).plot_max_points ps).map entryFx ∧
    (ingestAll (start_experiment (mkDataManager C) t0) ps).current_data.force_z
        = (lastN (mkDataManager C).plot_max_points ps).map entryFz ∧
    (ingestAll (start_experiment (mkDataManager C) t0) ps).current_data.timestamp
        = (lastN (mkDataManager C).plot_max_points ps).map entryTs ∧
    (ingestAll (start_experiment (mkDataManager C) t0) ps).current_data.time.length
        = (mkDataManager C).plot_max_points ∧
    (ingestAll (start_experiment (mkDataManager C) t0) ps).csv_rows = ps.map entryRow ∧
    (ingestAll (start_experiment (mkDataManager C) t0) ps).rows_written = ps.length ∧
    (∀ qs : List (Reading × ℚ),
      (ingestAll (start_experiment (mkDataManager C) t0) qs).plot_time.length
        ≤ (mkDataManager C).plot_max_points) := by
  obtain ⟨_, _, _, i4, i5, i6, i7, i8, i9, i10⟩ :=
    ingestAll_exp_spec ps (start_experiment (mkDataManager C) t0) rfl rfl hexp rfl
      (Nat.zero_le _) (Nat.zero_le _) (Nat.zero_le _) (Nat.zero_le _)
  have hnil : (start_experiment (mkDataManager C) t0).plot_time = [] := rfl
  have hnilfx : (start_experiment (mkDataManager C) t0).plot_fx = [] := rfl
  have hnilfz : (start_experiment (mkDataManager C) t0).plot_fz = [] := rfl
  have hnilts : (start_experiment (mkDataManager C) t0).plot_timestamp = [] := rfl
  rw [hnil, List.nil_append, lastN_map] at i6
  rw [hnilfx, List.nil_append, lastN_map] at i7
  rw [hnilfz, List.nil_append, lastN_map] at i8
  rw [hnilts, List.nil_append, lastN_map] at i9
  have ht : (ingestAll (start_experiment (mkDataManager C) t0) ps).current_data.time
      = (lastN (mkDataManager C).plot_max_points ps).map entryTime := by
    rw [i10]
    exact i6
  refine ⟨ht, ?_, ?_, ?_, ?_, ?_, ?_, ?_⟩
  · rw [i10]
    exact i7
  · rw [i10]
    exact i8
  · rw [i10]
    exact i9
  · rw [ht, List.length_map]
    exact lastN_length_of_lt hN
  · rw [i5]
    exact List.nil_append _
  · rw [i4]
    exact Nat.zero_add _
  · intro qs
    exact ingest_len_bound qs (start_experiment (mkDataManager C) t0) (Nat.zero_le _)

set_option maxRecDepth 100000 in
/-- Witness for C3's amended theorem: capacity argument 5 (capacity 100)
and 101 ingested experiment readings. -/
theorem C3_witness :
    (∀ p ∈ List.replicate 101 (rMeasExp, (0 : ℚ)),
      (p : Reading × ℚ).1.is_experiment = true) ∧
    (mkDataManager 5).plot_max_points < (List.replicate 101 (rMeasExp, (0 : ℚ))).length ∧
    (ingestAll (start_experiment (mkDataManager 5) 0)
        (List.replicate 101 (rMeasExp, 0))).current_data.time.length
      = (mkDataManager 5).plot_max_points ∧
    (ingestAll (start_experiment (mkDataManager 5) 0)
        (List.replicate 101 (rMeasExp, 0))).rows_written
      = (List.replicate 101 (rMeasExp, (0 : ℚ))).length :=
  ⟨by decide, by decide,
   (C3_ring_and_log 5 0 (List.replicate 101 (rMeasExp, 0))
     (by decide) (by decide)).2.2.2.2.1,
   (C3_ring_and_log 5 0 (List.replicate 101 (rMeasExp, 0))
     (by decide) (by decide)).2.2.2.2.2.2.1⟩

lemma asmStep : ∀ k < 8, ∀ j < 8,
    asmInvB (feed (asmTable k) ((streamS.drop k).take j)) ((streamS.drop k).drop j) = true := by
  decide

lemma asmInvB_elim {st : AsmState} {rem : List Char} (h : asmInvB st rem = true) :
    ∃ k, k < 8 ∧ st = asmTable k ∧ rem = streamS.drop k := by
  unfold asmInvB at h
  rw [List.any_eq_true] at h
  obtain ⟨k, hk, hkk⟩ := h
  rw [List.mem_range] at hk
  rw [Bool.and_eq_true, beq_iff_eq, beq_iff_eq] at hkk
  exact ⟨k, hk, hkk.1, hkk.2⟩

lemma asmFinal : ∀ k, k < 8 → streamS.drop k = [] →
    (asmTable k).2 = [['a'], ['b'], ['c']] := by
  decide

lemma asmAux : ∀ (chunks : List (List Char)) (st : AsmState) (rem : List Char),
    asmInvB st rem = true → chunks.flatten = rem →
    (feedAll st chunks).2 = [['a'], ['b'], ['c']] := by
  intro chunks
  induction chunks with
  | nil =>
    intro st rem hinv hjoin
    obtain ⟨k, hk, hst, hrem⟩ := asmInvB_elim hinv
    have hrem0 : streamS.drop k = [] := by rw [← hrem, ← hjoin]; rfl
    show st.2 = [['a'], ['b'], ['c']]
    rw [hst]
    exact asmFinal k hk hrem0
  | cons c cs ih =>
    intro st rem hinv hjoin
    obtain ⟨k, hk, hst, hrem⟩ := asmInvB_elim hinv
    have hjoin2 : c ++ cs.flatten = rem := by rw [← hjoin]; rfl
    have hlen : c.length ≤ 7 := by
      have h1 : c.length ≤ rem.length := by
        rw [← hjoin2, List.length_append]
        omega
      have h2 : rem.length ≤ 7 := by
        rw [hrem, List.length_drop]
        have h3 : streamS.length = 7 := rfl
        omega
      omega
    have hc : c = (streamS.drop k).take c.length := by
      rw [← hrem, ← hjoin2]
      exact (List.take_left c cs.flatten).symm
    have hrest : cs.flatten = (streamS.drop k).drop c.length := by
      rw [← hrem, ← hjoin2]
      exact (List.drop_left c cs.flatten).symm
    have hstep := asmStep k hk c.length (by omega)
    have hfeed : feedAll st (c :: cs) = feedAll (feed st c) cs := rfl
    rw [hfeed]
    refine ih (feed st c) ((streamS.drop k).drop c.length) ?_ hrest
    rw [← hc] at hstep
    rw [hst]
    exact hstep

/-- C8: for every way of splitting the byte stream `"a\r\nb\nc\r"` into
chunks fed across successive calls, the line assembler emits exactly the
lines `"a"`, `"b"`, `"c"` in order, with no spurious empty lines: it
splits on `\r\n` first, then bare `\n`, then bare `\r`, repeatedly, and
discards lines that are blank after trimming. -/
theorem C8_assembler_chunking (chunks : List (List Char)) (h : chunks.flatten = streamS) :
    (feedAll ([], []) chunks).2 = [['a'], ['b'], ['c']] :=
  asmAux chunks ([], []) streamS (by decide) h

/-- Witness for C8 at the chunking `["a\r", "\nb\nc\r"]`, which splits the
stream in the middle of the `\r\n` terminator. -/
theorem C8_witness :
    (["a\r".toList, "\nb\nc\r".toList] : List (List Char)).flatten = streamS ∧
    (feedAll ([], []) ["a\r".toList, "\nb\nc\r".toList]).2 = [['a'], ['b'], ['c']] :=
  ⟨by decide, C8_assembler_chunking ["a\r".toList, "\nb\nc\r".toList] (by decide)⟩

end

end Tribology
